import Mathlib

/-!
Shallow embedding of the postgres-mcp-cloudflare worker (src/src/index.ts).

The worker gates MCP tools behind a GitHub-identity access decision
(`checkUserAccess` with `getOAuthAppOrganization`) and runs SQL through a
read-only, always-rolled-back transaction (the `query` tool handler and the
`steampipe_table_show` tool handler).

Remote collaborators (the GitHub REST API reached through `fetch`/Octokit and
the PostgreSQL client obtained from the pool) are modelled as oracle records
whose fields give the outcome of each remote operation; a thrown JavaScript
exception is modelled as `Except.error msg`.  Each embedded operation also
returns the list of remote calls (respectively database actions) it issued,
so that claims about which remote calls happen, and in which order, can be
stated.
-/

namespace PostgresMcp

/-- The `Props` record decrypted from the auth token (src/src/index.ts lines
11-16): GitHub login, display name, email, and the access token of the user. -/
structure Props where
  login : String
  name : String
  email : String
  accessToken : String

/-- The worker environment bindings read via `(this.env as any).X`.  A binding
can be absent (`none`); JavaScript truthiness tests (`!clientId`) treat both
an absent binding and the empty string as falsy. -/
structure Env where
  GITHUB_CLIENT_ID : Option String
  GITHUB_CLIENT_SECRET : Option String
  ALLOWED_USERNAMES : Option String
  DATABASE_URL : Option String

/-- JavaScript falsiness of an optional string binding: absent or empty. -/
def falsy : Option String → Bool
  | none => true
  | some s => s = ""

/-- A remote (GitHub) call issued by the access decision: the OAuth-app
metadata fetch, the public-membership check `orgs.checkMembershipForUser`,
or the membership-status check `orgs.getMembershipForUser`. -/
inductive RemoteCall where
  | fetchAppInfo
  | checkMembership (org user : String)
  | getMembership (org user : String)
deriving DecidableEq

/-- The `owner` object of the GitHub OAuth-app metadata response. -/
structure AppOwner where
  type : String
  login : String
deriving DecidableEq

/-- The parsed JSON body of the OAuth-app metadata response; `owner` may be
absent. -/
structure AppData where
  owner : Option AppOwner
deriving DecidableEq

/-- The `fetch` response for `GET /applications/:client_id`: the `ok` flag,
status information, and the parsed body. -/
structure HttpResponse where
  ok : Bool
  status : Nat
  statusText : String
  body : AppData
deriving DecidableEq

/-- Oracle for the GitHub collaborators used by the access decision.
`fetchAppInfo` is the outcome of the OAuth-app metadata fetch (an
`Except.error` models a thrown network error); the two membership fields give
the outcome of the corresponding Octokit call for a given organization and
username (`Except.error` models the thrown error that a 404 or transport
failure produces). -/
structure GitHubApi where
  fetchAppInfo : Except String HttpResponse
  checkMembershipForUser : String → String → Except String Unit
  getMembershipForUser : String → String → Except String Unit

/-- Embedding of `getOAuthAppOrganization` (src/src/index.ts lines 31-73).
Returns the login of the owning organization when the OAuth app is owned by an
organization, and `none` otherwise: missing `GITHUB_CLIENT_ID` or
`GITHUB_CLIENT_SECRET`, a non-ok HTTP response, an owner that is absent or
not of type `Organization`, or a thrown fetch error (the catch-all at line 69
turns any throw into `null`).  Also returns the list of remote calls issued:
the fetch happens exactly when both credentials are truthy. -/
def getOAuthAppOrganization (env : Env) (api : GitHubApi) :
    Option String × List RemoteCall :=
  if falsy env.GITHUB_CLIENT_ID || falsy env.GITHUB_CLIENT_SECRET then
    (none, [])
  else
    match api.fetchAppInfo with
    | Except.error _ => (none, [RemoteCall.fetchAppInfo])
    | Except.ok resp =>
      if !resp.ok then (none, [RemoteCall.fetchAppInfo])
      else
        match resp.body.owner with
        | some o =>
          if o.type = "Organization" then (some o.login, [RemoteCall.fetchAppInfo])
          else (none, [RemoteCall.fetchAppInfo])
        | none => (none, [RemoteCall.fetchAppInfo])

/-- Embedding of `checkUserAccess` (src/src/index.ts lines 78-125).  The
allowed-usernames set is carried as the list of its elements; `Set.has`
becomes `List.contains`.  The result is `Except String Bool` so that a
boolean that escaped the method is `Except.ok`: every throw site of the
source sits under a catch (`getOAuthAppOrganization` catches internally at
line 69, the public-membership throw is caught at line 104, the
membership-status throw at line 113, and the outer catch at line 118 turns
any remaining throw into `false`), so the embedding constructs `Except.ok`
on every path.  The second component is the list of remote calls issued, in
order. -/
def checkUserAccess (props : Props) (env : Env) (api : GitHubApi)
    (allowedUsernames : List String) : Except String Bool × List RemoteCall :=
  if allowedUsernames.contains props.login then
    (Except.ok true, [])
  else if allowedUsernames.contains "*" then
    match getOAuthAppOrganization env api with
    | (none, tr) => (Except.ok false, tr)
    | (some githubOrg, tr) =>
      match api.checkMembershipForUser githubOrg props.login with
      | Except.ok _ =>
        (Except.ok true, tr ++ [RemoteCall.checkMembership githubOrg props.login])
      | Except.error _ =>
        match api.getMembershipForUser githubOrg props.login with
        | Except.ok _ =>
          (Except.ok true,
            tr ++ [RemoteCall.checkMembership githubOrg props.login,
                   RemoteCall.getMembership githubOrg props.login])
        | Except.error _ =>
          (Except.ok false,
            tr ++ [RemoteCall.checkMembership githubOrg props.login,
                   RemoteCall.getMembership githubOrg props.login])
  else
    (Except.ok false, [])

/-- JavaScript `String.prototype.split(",")` on the character list of the
string: every comma separates two pieces and empty pieces are kept, so the
result of splitting the empty string is `[[]]` and splitting `"a,,b"` gives
three pieces. -/
def splitOnComma : List Char → List (List Char)
  | [] => [[]]
  | c :: rest =>
    if c = ',' then [] :: splitOnComma rest
    else
      match splitOnComma rest with
      | [] => [[c]]
      | p :: ps => (c :: p) :: ps

/-- JavaScript `String.prototype.trim()` on a character list: drop leading
and trailing whitespace characters. -/
def trimChars (cs : List Char) : List Char :=
  ((cs.dropWhile Char.isWhitespace).reverse.dropWhile Char.isWhitespace).reverse

/-- The map-trim-filter stage of the `init` allowed-usernames parsing
(src/src/index.ts lines 130-135): trim each split piece, drop the pieces
that are empty after trimming. -/
def parseAllowedEntries (pieces : List (List Char)) : List String :=
  ((pieces.map trimChars).filter (fun cs => 0 < cs.length)).map List.asString

/-- Embedding of the `ALLOWED_USERNAMES` parsing in `init` (src/src/index.ts
lines 128-135): `(env.ALLOWED_USERNAMES || "").split(",")`, then trim each
entry and drop empty entries (`new Set` only removes duplicates and
membership of the set agrees with membership of this list). -/
def parseAllowedUsernames (s : Option String) : List String :=
  parseAllowedEntries (splitOnComma (s.getD "").toList)

/-! Database side: the `query` tool handler and the `steampipe_table_show`
tool handler.  A pooled client is an oracle giving the outcome of each
database operation; the handler additionally returns the ordered list of
database actions it performed. -/

/-- A result row of the caller-supplied SQL statement, as the list of its
column-name/value pairs. -/
abbrev Row := List (String × String)

/-- A database action performed by a tool handler, in order: acquiring the
pooled client, issuing `BEGIN TRANSACTION READ ONLY`, running a statement,
issuing `COMMIT` (never constructed by these handlers), issuing `ROLLBACK`,
logging the non-fatal rollback warning, and releasing the client back to the
pool. -/
inductive DbAction where
  | connect
  | beginTx
  | statement (sql : String)
  | commit
  | rollback
  | warnRollback (msg : String)
  | release
deriving DecidableEq

/-- Oracle for one pooled PostgreSQL client, as used by the `query` tool:
the outcome of `BEGIN TRANSACTION READ ONLY`, of running the caller-supplied SQL,
and of `ROLLBACK`.  `Except.error msg` models a rejected query promise. -/
structure DbClient where
  beginTx : Except String Unit
  runStatement : String → Except String (List Row)
  rollback : Except String Unit

/-- Embedding of the `query` tool handler (src/src/index.ts lines 174-196).
`poolInitialized` is whether `this.pool` is non-null; `connectResult` is the
outcome of `this.pool.connect()` (a rejection there propagates, it is outside
the try).  Inside the try, a failure of `BEGIN` or of the caller-supplied statement
is caught and rethrown as `Query execution failed: <message>`; the finally
block always issues `ROLLBACK` (a rollback rejection only logs a warning,
via `.catch`) and then releases the client. -/
def queryToolHandler (poolInitialized : Bool) (connectResult : Except String DbClient)
    (sql : String) : Except String (List Row) × List DbAction :=
  if !poolInitialized then
    (Except.error "Database pool not initialized", [])
  else
    match connectResult with
    | Except.error e => (Except.error e, [])
    | Except.ok client =>
      let tryOutcome : Except String (List Row) × List DbAction :=
        match client.beginTx with
        | Except.error e =>
          (Except.error ("Query execution failed: " ++ e),
           [DbAction.connect, DbAction.beginTx])
        | Except.ok _ =>
          match client.runStatement sql with
          | Except.error e =>
            (Except.error ("Query execution failed: " ++ e),
             [DbAction.connect, DbAction.beginTx, DbAction.statement sql])
          | Except.ok rows =>
            (Except.ok rows,
             [DbAction.connect, DbAction.beginTx, DbAction.statement sql])
      let finallyActions : List DbAction :=
        match client.rollback with
        | Except.ok _ => [DbAction.rollback, DbAction.release]
        | Except.error e => [DbAction.rollback, DbAction.warnRollback e, DbAction.release]
      (tryOutcome.1, tryOutcome.2 ++ finallyActions)

/-- One row of the `steampipe_table_show` metadata query (the projection at
src/src/index.ts lines 356-368).  The columns coming from the LEFT JOIN with
`information_schema.columns`, and the nullable metadata columns, are
optional (`none` models SQL NULL). -/
structure ColumnRow where
  schema : String
  name : String
  type : String
  column_name : Option String
  data_type : Option String
  is_nullable : Option String
  column_default : Option String
  character_maximum_length : Option Int
  numeric_precision : Option Int
  numeric_scale : Option Int
  description : Option String
deriving DecidableEq

/-- JavaScript-truthiness filter used by the conditional spread
`...(row.x && { x: row.x })` for a numeric metadata value: the key is kept
exactly when the value is present and non-zero (0, null, undefined are
falsy). -/
def keepTruthyInt : Option Int → Option Int
  | none => none
  | some n => if n = 0 then none else some n

/-- JavaScript-truthiness filter used by the conditional spread for a string
metadata value: the key is kept exactly when the value is present and
non-empty. -/
def keepTruthyStr : Option String → Option String
  | none => none
  | some s => if s = "" then none else some s

/-- One column entry of the `steampipe_table_show` output (src/src/index.ts
lines 402-411).  For the four conditionally-spread fields, `none` means the
key is absent from the emitted JSON object; `name`, `type`, `default` keys
are always present (with possibly-null values), `nullable` is the boolean
`is_nullable` being the text `YES`. -/
structure ColumnOut where
  name : Option String
  type : Option String
  nullable : Bool
  default : Option String
  character_maximum_length : Option Int
  numeric_precision : Option Int
  numeric_scale : Option Int
  description : Option String
deriving DecidableEq

/-- The map from a metadata row to an output column entry (src/src/index.ts
lines 402-411), including the conditional spreads. -/
def mkColumnOut (r : ColumnRow) : ColumnOut :=
  { name := r.column_name
    type := r.data_type
    nullable := r.is_nullable == some "YES"
    default := r.column_default
    character_maximum_length := keepTruthyInt r.character_maximum_length
    numeric_precision := keepTruthyInt r.numeric_precision
    numeric_scale := keepTruthyInt r.numeric_scale
    description := keepTruthyStr r.description }

/-- The `table` object of the `steampipe_table_show` output (src/src/index.ts
lines 398-412): header fields from the first row, one entry per row. -/
structure TableOut where
  schema : String
  name : String
  type : String
  columns : List ColumnOut
deriving DecidableEq

/-- The content returned by the `steampipe_table_show` handler: the
schema-not-found text, the table-not-found text, or the table structure. -/
inductive ShowResult where
  | schemaNotFound (text : String)
  | tableNotFound (text : String)
  | table (t : TableOut)
deriving DecidableEq

/-- Oracle for one pooled client as used by `steampipe_table_show`:
outcomes of `BEGIN`, of the schema-existence query (the `schema_name` rows
returned for a given schema parameter), of the table metadata query (rows
for a given table name and optional schema), and of `ROLLBACK`. -/
structure IntrospectClient where
  beginTx : Except String Unit
  schemaRows : String → Except String (List String)
  tableRows : String → Option String → Except String (List ColumnRow)
  rollback : Except String Unit

/-- The finally block shared by both tool handlers: always issue `ROLLBACK`
(warn on its failure) and then release the client. -/
def finallyActions (client : IntrospectClient) : List DbAction :=
  match client.rollback with
  | Except.ok _ => [DbAction.rollback, DbAction.release]
  | Except.error e => [DbAction.rollback, DbAction.warnRollback e, DbAction.release]

/-- The not-found text for a missing schema (src/src/index.ts line 350). -/
def schemaNotFoundText (s : String) : String :=
  "Schema \x27" ++ s ++ "\x27 not found"

/-- The not-found text for a missing table (src/src/index.ts line 393),
qualified by the schema when one was given. -/
def tableNotFoundText (name : String) (schema? : Option String) : String :=
  "Table \x27" ++ name ++ "\x27 not found" ++
    (match schema? with
     | some s => " in schema \x27" ++ s ++ "\x27"
     | none => "")

/-- Embedding of the `steampipe_table_show` tool handler (src/src/index.ts
lines 331-427).  When a schema argument is given, the schema-existence query
runs first and an empty result returns the `Schema ... not found` text; then
the metadata query runs and an empty result returns the `Table ... not
found` text (qualified by the schema when one was given); otherwise the rows
are folded into the `TableOut` structure.  Any caught failure is rethrown as
`Failed to get table details: <message>`; the finally block always rolls
back and releases. -/
def steampipe_table_show (poolInitialized : Bool)
    (connectResult : Except String IntrospectClient) (name : String)
    (schema? : Option String) : Except String ShowResult × List DbAction :=
  if !poolInitialized then
    (Except.error "Database pool not initialized", [])
  else
    match connectResult with
    | Except.error e => (Except.error e, [])
    | Except.ok client =>
      let tableStep : List DbAction → Except String ShowResult × List DbAction :=
        fun acc =>
          match client.tableRows name schema? with
          | Except.error e =>
            (Except.error ("Failed to get table details: " ++ e),
             acc ++ [DbAction.statement "tableQuery"])
          | Except.ok [] =>
            (Except.ok (ShowResult.tableNotFound (tableNotFoundText name schema?)),
             acc ++ [DbAction.statement "tableQuery"])
          | Except.ok (r0 :: rest) =>
            (Except.ok (ShowResult.table
               { schema := r0.schema
                 name := r0.name
                 type := r0.type
                 columns := (r0 :: rest).map mkColumnOut }),
             acc ++ [DbAction.statement "tableQuery"])
      let tryOutcome : Except String ShowResult × List DbAction :=
        match client.beginTx with
        | Except.error e =>
          (Except.error ("Failed to get table details: " ++ e),
           [DbAction.connect, DbAction.beginTx])
        | Except.ok _ =>
          match schema? with
          | some s =>
            match client.schemaRows s with
            | Except.error e =>
              (Except.error ("Failed to get table details: " ++ e),
               [DbAction.connect, DbAction.beginTx, DbAction.statement "schemaQuery"])
            | Except.ok rows =>
              if rows.length = 0 then
                (Except.ok (ShowResult.schemaNotFound (schemaNotFoundText s)),
                 [DbAction.connect, DbAction.beginTx, DbAction.statement "schemaQuery"])
              else
                tableStep [DbAction.connect, DbAction.beginTx, DbAction.statement "schemaQuery"]
          | none => tableStep [DbAction.connect, DbAction.beginTx]
      (tryOutcome.1, tryOutcome.2 ++ finallyActions client)

/-! Concrete fixtures used by witness theorems. -/

/-- A fixed identity used in witnesses. -/
def aliceProps : Props :=
  { login := "alice", name := "Alice", email := "a@example.com", accessToken := "tok" }

/-- An environment with no bindings configured. -/
def emptyEnv : Env :=
  { GITHUB_CLIENT_ID := none, GITHUB_CLIENT_SECRET := none,
    ALLOWED_USERNAMES := none, DATABASE_URL := none }

/-- An environment with GitHub app credentials configured. -/
def credEnv : Env :=
  { GITHUB_CLIENT_ID := some "cid", GITHUB_CLIENT_SECRET := some "csec",
    ALLOWED_USERNAMES := some "alice", DATABASE_URL := some "postgresql://db" }

/-- A GitHub collaborator on which every remote operation throws. -/
def throwingApi : GitHubApi :=
  { fetchAppInfo := Except.error "network down"
    checkMembershipForUser := fun _ _ => Except.error "thrown"
    getMembershipForUser := fun _ _ => Except.error "thrown" }

/-- A GitHub collaborator whose app is owned by the organization `acme` and
for which the public-membership check throws (404) but the membership-status
check succeeds. -/
def privateMemberApi : GitHubApi :=
  { fetchAppInfo := Except.ok
      { ok := true, status := 200, statusText := "OK",
        body := { owner := some { type := "Organization", login := "acme" } } }
    checkMembershipForUser := fun _ _ => Except.error "404"
    getMembershipForUser := fun _ _ => Except.ok () }

/-- A pooled client on which the caller-supplied statement is rejected by the
engine. -/
def failingStatementClient : DbClient :=
  { beginTx := Except.ok ()
    runStatement := fun _ => Except.error "syntax error at or near SELEC"
    rollback := Except.ok () }

/-- A pooled client on which the rollback is rejected. -/
def failingRollbackClient : DbClient :=
  { beginTx := Except.ok ()
    runStatement := fun _ => Except.ok []
    rollback := Except.error "connection reset" }

/-- An introspection client on which both metadata queries return no rows. -/
def notFoundClient : IntrospectClient :=
  { beginTx := Except.ok ()
    schemaRows := fun _ => Except.ok []
    tableRows := fun _ _ => Except.ok []
    rollback := Except.ok () }

/-- The metadata row of a typical integer column: `numeric_scale` is
provided and equal to 0. -/
def integerColumnRow : ColumnRow :=
  { schema := "public", name := "t", type := "BASE TABLE",
    column_name := some "id", data_type := some "integer",
    is_nullable := some "NO", column_default := none,
    character_maximum_length := none, numeric_precision := some 32,
    numeric_scale := some 0, description := none }

/-! Theorems for the access-decision claims. -/

/-- C1: when the handle of the identity is in the allowed-handles set, the access
decision grants immediately and issues no remote call, for every behaviour
of the remote collaborators (including ones that fail or throw on every
operation). -/
theorem allowlist_grant_short_circuits (props : Props) (env : Env) (api : GitHubApi)
    (allowed : List String) (h : props.login ∈ allowed) :
    checkUserAccess props env api allowed = (Except.ok true, []) := by
  simp [checkUserAccess, h]

/-- Witness for C1 at a concrete identity, with a collaborator that throws on
every remote operation. -/
theorem allowlist_grant_short_circuits_witness :
    checkUserAccess aliceProps emptyEnv throwingApi ["alice"] = (Except.ok true, []) :=
  allowlist_grant_short_circuits aliceProps emptyEnv throwingApi ["alice"] (by decide)

/-- C5: when the handle of the identity is not in the allowed-handles set and the
set does not contain the wildcard sentinel, the access decision denies and
issues no remote call, for every behaviour of the remote collaborators. -/
theorem deny_without_wildcard (props : Props) (env : Env) (api : GitHubApi)
    (allowed : List String) (h1 : props.login ∉ allowed)
    (h2 : "*" ∉ allowed) :
    checkUserAccess props env api allowed = (Except.ok false, []) := by
  simp [checkUserAccess, h1, h2]

/-- Witness for C5 at a concrete identity and allow-list, with a collaborator
that throws on every remote operation. -/
theorem deny_without_wildcard_witness :
    checkUserAccess aliceProps credEnv throwingApi ["bob", "carol"] = (Except.ok false, []) :=
  deny_without_wildcard aliceProps credEnv throwingApi ["bob", "carol"] (by decide) (by decide)

/-- C2: the access decision always resolves to a boolean (`Except.ok`):
every throw site of the source sits under a catch, so no exception escapes;
and when the handle is not allow-listed, each internal failure — missing
client credentials, a thrown owner-lookup fetch, or membership lookups that
throw — resolves to a denial, never a grant. -/
theorem decide_never_raises (props : Props) (env : Env) (api : GitHubApi)
    (allowed : List String) :
    (∃ b tr, checkUserAccess props env api allowed = (Except.ok b, tr)) ∧
    (props.login ∉ allowed →
      ((falsy env.GITHUB_CLIENT_ID || falsy env.GITHUB_CLIENT_SECRET) = true →
        (checkUserAccess props env api allowed).1 = Except.ok false) ∧
      (∀ e, api.fetchAppInfo = Except.error e →
        (checkUserAccess props env api allowed).1 = Except.ok false) ∧
      (∀ e1 e2, (∀ o u, api.checkMembershipForUser o u = Except.error e1) →
        (∀ o u, api.getMembershipForUser o u = Except.error e2) →
        (checkUserAccess props env api allowed).1 = Except.ok false)) := by
  constructor
  · by_cases hl : props.login ∈ allowed
    · exact ⟨true, [], by simp [checkUserAccess, hl]⟩
    · by_cases hw : ("*" : String) ∈ allowed
      · rcases hg : getOAuthAppOrganization env api with ⟨o, tr⟩
        cases o with
        | none => exact ⟨false, tr, by simp [checkUserAccess, hl, hw, hg]⟩
        | some org =>
          cases hm : api.checkMembershipForUser org props.login with
          | ok u =>
            exact ⟨true, tr ++ [RemoteCall.checkMembership org props.login],
              by simp [checkUserAccess, hl, hw, hg, hm]⟩
          | error e1 =>
            cases hm2 : api.getMembershipForUser org props.login with
            | ok u =>
              exact ⟨true, tr ++ [RemoteCall.checkMembership org props.login,
                RemoteCall.getMembership org props.login],
                by simp [checkUserAccess, hl, hw, hg, hm, hm2]⟩
            | error e2 =>
              exact ⟨false, tr ++ [RemoteCall.checkMembership org props.login,
                RemoteCall.getMembership org props.login],
                by simp [checkUserAccess, hl, hw, hg, hm, hm2]⟩
      · exact ⟨false, [], by simp [checkUserAccess, hl, hw]⟩
  · intro h
    refine ⟨?_, ?_, ?_⟩
    · intro hcfg
      by_cases hw : ("*" : String) ∈ allowed
      · simp [checkUserAccess, getOAuthAppOrganization, h, hw, hcfg]
      · simp [checkUserAccess, h, hw]
    · intro e hfe
      by_cases hw : ("*" : String) ∈ allowed
      · by_cases hcfg : (falsy env.GITHUB_CLIENT_ID || falsy env.GITHUB_CLIENT_SECRET) = true
        · simp [checkUserAccess, getOAuthAppOrganization, h, hw, hcfg]
        · simp [checkUserAccess, getOAuthAppOrganization, h, hw, hcfg, hfe]
      · simp [checkUserAccess, h, hw]
    · intro e1 e2 hm1 hm2
      by_cases hw : ("*" : String) ∈ allowed
      · rcases hg : getOAuthAppOrganization env api with ⟨o, tr⟩
        cases o with
        | none => simp [checkUserAccess, h, hw, hg]
        | some org =>
          simp [checkUserAccess, h, hw, hg, hm1 org props.login, hm2 org props.login]
      · simp [checkUserAccess, h, hw]

/-- Witness for C2 at a concrete identity with missing client credentials
and a collaborator that throws on every remote operation. -/
theorem decide_never_raises_witness :
    (checkUserAccess aliceProps emptyEnv throwingApi ["bob", "*"]).1 = Except.ok false :=
  ((decide_never_raises aliceProps emptyEnv throwingApi ["bob", "*"]).2 (by decide)).1 (by decide)

/-- C4: on the wildcard path (handle not allow-listed, sentinel present),
owner resolution fails to an organization of `none` for missing client
credentials, a thrown fetch, or a non-organization owner, and a `none`
resolution makes the decision deny; when resolution yields an organization,
the decision grants when the public-membership check succeeds, otherwise
grants when the membership-status check succeeds, and denies when both
throw. -/
theorem wildcard_variant_a (props : Props) (env : Env) (api : GitHubApi)
    (allowed : List String) (h1 : props.login ∉ allowed)
    (h2 : ("*" : String) ∈ allowed) :
    ((falsy env.GITHUB_CLIENT_ID || falsy env.GITHUB_CLIENT_SECRET) = true →
      (getOAuthAppOrganization env api).1 = none) ∧
    (∀ e, api.fetchAppInfo = Except.error e → (getOAuthAppOrganization env api).1 = none) ∧
    (∀ resp o, api.fetchAppInfo = Except.ok resp → resp.body.owner = some o →
      o.type ≠ "Organization" → (getOAuthAppOrganization env api).1 = none) ∧
    ((getOAuthAppOrganization env api).1 = none →
      (checkUserAccess props env api allowed).1 = Except.ok false) ∧
    (∀ org, (getOAuthAppOrganization env api).1 = some org →
      (api.checkMembershipForUser org props.login = Except.ok () →
        (checkUserAccess props env api allowed).1 = Except.ok true) ∧
      (∀ e1, api.checkMembershipForUser org props.login = Except.error e1 →
        (api.getMembershipForUser org props.login = Except.ok () →
          (checkUserAccess props env api allowed).1 = Except.ok true) ∧
        (∀ e2, api.getMembershipForUser org props.login = Except.error e2 →
          (checkUserAccess props env api allowed).1 = Except.ok false))) := by
  refine ⟨?_, ?_, ?_, ?_, ?_⟩
  · intro hcfg
    simp [getOAuthAppOrganization, hcfg]
  · intro e hfe
    by_cases hcfg : (falsy env.GITHUB_CLIENT_ID || falsy env.GITHUB_CLIENT_SECRET) = true
    · simp [getOAuthAppOrganization, hcfg]
    · simp [getOAuthAppOrganization, hcfg, hfe]
  · intro resp o hresp howner htype
    by_cases hcfg : (falsy env.GITHUB_CLIENT_ID || falsy env.GITHUB_CLIENT_SECRET) = true
    · simp [getOAuthAppOrganization, hcfg]
    · cases hok : resp.ok <;>
        simp [getOAuthAppOrganization, hcfg, hresp, howner, htype, hok]
  · intro hnone
    rcases hg : getOAuthAppOrganization env api with ⟨o, tr⟩
    rw [hg] at hnone
    dsimp only at hnone
    subst hnone
    simp [checkUserAccess, h1, h2, hg]
  · intro org hsome
    rcases hg : getOAuthAppOrganization env api with ⟨o, tr⟩
    rw [hg] at hsome
    dsimp only at hsome
    subst hsome
    refine ⟨?_, ?_⟩
    · intro hpub
      simp [checkUserAccess, h1, h2, hg, hpub]
    · intro e1 hpub
      refine ⟨?_, ?_⟩
      · intro hpriv
        simp [checkUserAccess, h1, h2, hg, hpub, hpriv]
      · intro e2 hpriv
        simp [checkUserAccess, h1, h2, hg, hpub, hpriv]

/-- Witness for C4 at a concrete identity whose public-membership check
throws but whose membership-status check succeeds for the resolved
organization. -/
theorem wildcard_variant_a_witness :
    (checkUserAccess aliceProps credEnv privateMemberApi ["bob", "*"]).1 = Except.ok true :=
  ((((wildcard_variant_a aliceProps credEnv privateMemberApi ["bob", "*"]
      (by decide) (by decide)).2.2.2.2 "acme" rfl).2 "404" rfl).1) rfl

/-- C10: the allowed-handles policy comes from splitting `ALLOWED_USERNAMES`
on commas, trimming each entry and dropping empties: an unset or empty
binding yields the empty allow-list, on which the decision denies with no
remote call for every identity; and two bindings whose comma-split pieces
agree after trimming yield identical decisions, so surrounding whitespace in
configured handles never affects the decision. -/
theorem allowed_usernames_parsing (props : Props) (env : Env) (api : GitHubApi) :
    parseAllowedUsernames none = [] ∧
    parseAllowedUsernames (some "") = [] ∧
    checkUserAccess props env api (parseAllowedUsernames none) = (Except.ok false, []) ∧
    (∀ s t : String,
      (splitOnComma s.toList).map trimChars = (splitOnComma t.toList).map trimChars →
      checkUserAccess props env api (parseAllowedUsernames (some s)) =
        checkUserAccess props env api (parseAllowedUsernames (some t))) := by
  refine ⟨by decide, by decide, rfl, ?_⟩
  intro s t hst
  simp only [parseAllowedUsernames, parseAllowedEntries, Option.getD_some]
  rw [hst]

/-- Witness for C10: two concrete bindings differing only in surrounding
whitespace give the same decision. -/
theorem allowed_usernames_parsing_witness :
    checkUserAccess aliceProps emptyEnv throwingApi (parseAllowedUsernames (some " alice ,bob")) =
      checkUserAccess aliceProps emptyEnv throwingApi (parseAllowedUsernames (some "alice, bob")) :=
  (allowed_usernames_parsing aliceProps emptyEnv throwingApi).2.2.2
    " alice ,bob" "alice, bob" (by decide)

/-! Theorems for the query-tool claims. -/

/-- C3: on every call of the `query` tool that acquired a connection, for
every outcome of `BEGIN`, of the caller-supplied statement and of `ROLLBACK`, the
issued database actions contain a `ROLLBACK` strictly before the `release`
of the lease, and never contain a `COMMIT`. -/
theorem query_rollback_before_release_never_commit (client : DbClient) (sql : String) :
    ∃ l1 l2, (queryToolHandler true (Except.ok client) sql).2 =
        l1 ++ DbAction.rollback :: l2 ++ [DbAction.release] ∧
      DbAction.commit ∉ (queryToolHandler true (Except.ok client) sql).2 := by
  cases hb : client.beginTx with
  | error e =>
    cases hrb : client.rollback with
    | ok u =>
      exact ⟨[DbAction.connect, DbAction.beginTx], [],
        by simp [queryToolHandler, hb, hrb], by simp [queryToolHandler, hb, hrb]⟩
    | error e2 =>
      exact ⟨[DbAction.connect, DbAction.beginTx], [DbAction.warnRollback e2],
        by simp [queryToolHandler, hb, hrb], by simp [queryToolHandler, hb, hrb]⟩
  | ok u =>
    cases hr : client.runStatement sql with
    | error e =>
      cases hrb : client.rollback with
      | ok u2 =>
        exact ⟨[DbAction.connect, DbAction.beginTx, DbAction.statement sql], [],
          by simp [queryToolHandler, hb, hr, hrb], by simp [queryToolHandler, hb, hr, hrb]⟩
      | error e2 =>
        exact ⟨[DbAction.connect, DbAction.beginTx, DbAction.statement sql],
          [DbAction.warnRollback e2],
          by simp [queryToolHandler, hb, hr, hrb], by simp [queryToolHandler, hb, hr, hrb]⟩
    | ok rows =>
      cases hrb : client.rollback with
      | ok u2 =>
        exact ⟨[DbAction.connect, DbAction.beginTx, DbAction.statement sql], [],
          by simp [queryToolHandler, hb, hr, hrb], by simp [queryToolHandler, hb, hr, hrb]⟩
      | error e2 =>
        exact ⟨[DbAction.connect, DbAction.beginTx, DbAction.statement sql],
          [DbAction.warnRollback e2],
          by simp [queryToolHandler, hb, hr, hrb], by simp [queryToolHandler, hb, hr, hrb]⟩

/-- C6: when the caller-supplied statement fails, the `query` tool call fails with
the query-execution error wrapping the message of the engine, the lease is still
released (for every rollback outcome), and no rows are returned. -/
theorem query_failure_carries_engine_error (client : DbClient) (sql e : String)
    (hb : client.beginTx = Except.ok ()) (hr : client.runStatement sql = Except.error e) :
    (queryToolHandler true (Except.ok client) sql).1 =
      Except.error ("Query execution failed: " ++ e) ∧
    DbAction.release ∈ (queryToolHandler true (Except.ok client) sql).2 ∧
    (∀ rows, (queryToolHandler true (Except.ok client) sql).1 ≠ Except.ok rows) := by
  cases hrb : client.rollback <;> simp [queryToolHandler, hb, hr, hrb]

/-- Witness for C6: a concrete client whose statement execution fails. -/
theorem query_failure_carries_engine_error_witness :
    (queryToolHandler true (Except.ok failingStatementClient) "SELEC 1").1 =
      Except.error ("Query execution failed: " ++ "syntax error at or near SELEC") :=
  (query_failure_carries_engine_error failingStatementClient "SELEC 1"
    "syntax error at or near SELEC" rfl rfl).1

/-- C7: when the `ROLLBACK` itself fails, the failure is only logged as the
rollback warning: the primary outcome of the call is the same as with a
succeeding rollback, and the lease is still released. -/
theorem rollback_failure_nonfatal (client : DbClient) (sql e : String)
    (hrb : client.rollback = Except.error e) :
    (queryToolHandler true (Except.ok client) sql).1 =
      (queryToolHandler true (Except.ok { client with rollback := Except.ok () }) sql).1 ∧
    DbAction.warnRollback e ∈ (queryToolHandler true (Except.ok client) sql).2 ∧
    DbAction.release ∈ (queryToolHandler true (Except.ok client) sql).2 := by
  cases hb : client.beginTx with
  | error e2 => simp [queryToolHandler, hb, hrb]
  | ok u =>
    cases hr : client.runStatement sql <;> simp [queryToolHandler, hb, hr, hrb]

/-- Witness for C7: a concrete client whose rollback fails; the warning is
logged. -/
theorem rollback_failure_nonfatal_witness :
    DbAction.warnRollback "connection reset" ∈
      (queryToolHandler true (Except.ok failingRollbackClient) "SELECT 1").2 :=
  (rollback_failure_nonfatal failingRollbackClient "SELECT 1" "connection reset" rfl).2.1

/-! Theorems for the introspection-tool claims. -/

/-- C8: when the named schema does not exist (the schema-existence query
returns no rows), or the named table does not exist (the metadata query
returns no rows), `steampipe_table_show` returns the structured not-found
text as a normal result, not a query-execution error. -/
theorem table_show_not_found_structured (client : IntrospectClient) (name s : String)
    (hb : client.beginTx = Except.ok ()) :
    (client.schemaRows s = Except.ok [] →
      (steampipe_table_show true (Except.ok client) name (some s)).1 =
        Except.ok (ShowResult.schemaNotFound (schemaNotFoundText s))) ∧
    (client.tableRows name none = Except.ok [] →
      (steampipe_table_show true (Except.ok client) name none).1 =
        Except.ok (ShowResult.tableNotFound (tableNotFoundText name none))) ∧
    (∀ srows, client.schemaRows s = Except.ok srows → srows ≠ [] →
      client.tableRows name (some s) = Except.ok [] →
      (steampipe_table_show true (Except.ok client) name (some s)).1 =
        Except.ok (ShowResult.tableNotFound (tableNotFoundText name (some s)))) := by
  refine ⟨?_, ?_, ?_⟩
  · intro hs
    simp [steampipe_table_show, hb, hs]
  · intro ht
    simp [steampipe_table_show, hb, ht]
  · intro srows hs hne ht
    simp [steampipe_table_show, hb, hs, ht, List.length_eq_zero, hne]

/-- Witness for C8: a concrete client on which the schema-existence query
returns no rows. -/
theorem table_show_not_found_structured_witness :
    (steampipe_table_show true (Except.ok notFoundClient) "aws_account" (some "aws")).1 =
      Except.ok (ShowResult.schemaNotFound (schemaNotFoundText "aws")) :=
  (table_show_not_found_structured notFoundClient "aws_account" "aws" rfl).1 rfl

/-- Presence condition of a conditionally-spread numeric key: kept with
value `n` exactly when the metadata holds a non-zero `n`. -/
theorem keepTruthyInt_eq_some (x : Option Int) (n : Int) :
    keepTruthyInt x = some n ↔ (x = some n ∧ n ≠ 0) := by
  cases x with
  | none => simp [keepTruthyInt]
  | some m =>
    by_cases hm : m = 0
    · subst hm
      simp [keepTruthyInt]
      rintro rfl
      simp
    · simp [keepTruthyInt, hm]
      rintro rfl
      exact fun h => (hm h).elim

/-- Absence condition of a conditionally-spread numeric key: omitted exactly
when the metadata is missing or zero. -/
theorem keepTruthyInt_eq_none (x : Option Int) :
    keepTruthyInt x = none ↔ (x = none ∨ x = some 0) := by
  cases x with
  | none => simp [keepTruthyInt]
  | some m =>
    by_cases hm : m = 0 <;> simp [keepTruthyInt, hm]

/-- Presence condition of the conditionally-spread description key: kept
with value `s` exactly when the metadata holds a non-empty `s`. -/
theorem keepTruthyStr_eq_some (x : Option String) (s : String) :
    keepTruthyStr x = some s ↔ (x = some s ∧ s ≠ "") := by
  cases x with
  | none => simp [keepTruthyStr]
  | some t =>
    by_cases ht : t = ""
    · subst ht
      simp [keepTruthyStr]
      rintro rfl
      simp
    · simp [keepTruthyStr, ht]
      rintro rfl
      exact fun h => (ht h).elim

/-- Absence condition of the conditionally-spread description key: omitted
exactly when the metadata is missing or empty. -/
theorem keepTruthyStr_eq_none (x : Option String) :
    keepTruthyStr x = none ↔ (x = none ∨ x = some "") := by
  cases x with
  | none => simp [keepTruthyStr]
  | some t =>
    by_cases ht : t = "" <;> simp [keepTruthyStr, ht]

/-- C9 counterexample: the claim says an optional column field is present
exactly when the metadata provides a value; but for a metadata row with
`numeric_scale = 0` (as every integer column has) the value is provided and
the key is nevertheless omitted, because the conditional spread tests
JavaScript truthiness. -/
theorem column_optional_fields_cex :
    integerColumnRow.numeric_scale = some 0 ∧
    (mkColumnOut integerColumnRow).numeric_scale = none ∧
    (mkColumnOut integerColumnRow).numeric_scale ≠ integerColumnRow.numeric_scale :=
  ⟨rfl, rfl, by decide⟩

/-- C9 amended: each of the four optional column fields is present exactly
when the underlying metadata provides a truthy value — non-zero for the
numeric fields, non-empty for the description — and carries that value; it
is omitted (not null) when the metadata value is absent, zero, or empty. -/
theorem column_optional_fields_truthy (r : ColumnRow) :
    (∀ n : Int, ((mkColumnOut r).character_maximum_length = some n ↔
      (r.character_maximum_length = some n ∧ n ≠ 0))) ∧
    ((mkColumnOut r).character_maximum_length = none ↔
      (r.character_maximum_length = none ∨ r.character_maximum_length = some 0)) ∧
    (∀ n : Int, ((mkColumnOut r).numeric_precision = some n ↔
      (r.numeric_precision = some n ∧ n ≠ 0))) ∧
    ((mkColumnOut r).numeric_precision = none ↔
      (r.numeric_precision = none ∨ r.numeric_precision = some 0)) ∧
    (∀ n : Int, ((mkColumnOut r).numeric_scale = some n ↔
      (r.numeric_scale = some n ∧ n ≠ 0))) ∧
    ((mkColumnOut r).numeric_scale = none ↔
      (r.numeric_scale = none ∨ r.numeric_scale = some 0)) ∧
    (∀ s : String, ((mkColumnOut r).description = some s ↔
      (r.description = some s ∧ s ≠ ""))) ∧
    ((mkColumnOut r).description = none ↔
      (r.description = none ∨ r.description = some "")) :=
  ⟨fun n => keepTruthyInt_eq_some r.character_maximum_length n,
   keepTruthyInt_eq_none r.character_maximum_length,
   fun n => keepTruthyInt_eq_some r.numeric_precision n,
   keepTruthyInt_eq_none r.numeric_precision,
   fun n => keepTruthyInt_eq_some r.numeric_scale n,
   keepTruthyInt_eq_none r.numeric_scale,
   fun s => keepTruthyStr_eq_some r.description s,
   keepTruthyStr_eq_none r.description⟩

end PostgresMcp
